import Mathlib

/-!
Shallow embedding of the tiling and patch-extraction pipeline of
`DBO-DKFZ/wsi_preprocessing-crc` (`src/tile_generator.py`, class `WSIHandler`).

Conventions of the embedding:
* Python floats that hold fractions, thresholds and micron calibrations are
  modelled as `ℚ`; pixel counts and indices as `ℕ`; Python `int(...)` and
  `np.round(...)` are modelled explicitly (`pyInt`, `npRound`).
* numpy 2-D masks are `PixGrid` (a height, a width and a pixel predicate);
  numpy's clamped slicing `a[r0:r1, c0:c1]` is modelled by intersecting the
  index ranges with the grid bounds.
* Python code that can raise (`TypeError` in the `"<="` label branch,
  `KeyError` on a dict lookup) is modelled with `Except Unit`.
* Loops with `break` flags are modelled by structural recursion with the same
  fuel the source uses for its `range(...)` bounds.
-/

/-- Ceiling division on naturals: the value of `int(np.ceil(a / b))` for
nonnegative integer inputs and `b > 0`. -/
def ceilDiv (a b : ℕ) : ℕ := (a + b - 1) / b

/-- Python `int(...)` on a rational: truncation toward zero. -/
def pyInt (q : ℚ) : ℤ := if 0 ≤ q then ⌊q⌋ else -⌊-q⌋

/-- `np.round(...)` on a rational: round half to even (banker's rounding). -/
def npRound (q : ℚ) : ℤ :=
  if q - ⌊q⌋ < 1/2 then ⌊q⌋
  else if (1 : ℚ)/2 < q - ⌊q⌋ then ⌊q⌋ + 1
  else if Even ⌊q⌋ then ⌊q⌋ else ⌊q⌋ + 1

/-! ## Patch grid of `extract_patches` (tile_generator.py lines 447-587)

Inside one tile, `extract_patches` walks a `range(rows) × range(cols)` grid
with `rows = cols = int(np.ceil(tile_size / (patch_size - px_overlap)))`.
For each index it computes `patch_x = int(col * (patch_size - px_overlap))`;
if `patch_x + patch_size >= tile_size` it sets a stop flag and clamps
`patch_x = tile_size - patch_size`, and after emitting that patch it breaks
out of the loop for this axis.  The row and column axes run the identical
code, so the embedding models one axis. -/

/-- One axis of the patch loop: `fuel` is the remaining `range` budget, `col`
the current loop index, `T` the tile side in pixels, `p` the patch side and
`s = p - px_overlap` the stride.  Emits the (possibly clamped) patch origins
in loop order, stopping after the first clamped origin. -/
def axisPositionsAux (T p s : ℕ) : ℕ → ℕ → List ℕ
  | 0, _ => []
  | fuel + 1, col =>
    if T ≤ col * s + p then [T - p]
    else col * s :: axisPositionsAux T p s fuel (col + 1)

/-- The patch origins emitted along one axis of a tile by `extract_patches`:
the loop over `range(int(np.ceil(T / s)))` with the stop/clamp logic. -/
def axisPositions (T p s : ℕ) : List ℕ :=
  axisPositionsAux T p s (ceilDiv T s) 0

/-- `px_overlap = int(patch_size * overlap)` (lines 485 and 490). -/
def pxOverlap (patch_size : ℕ) (frac : ℚ) : ℕ :=
  (⌊(patch_size : ℚ) * frac⌋).toNat

/-- The overlap fraction used inside one tile: the annotation overlap when the
tile is annotated, the base overlap otherwise (lines 484-492). -/
def tileOverlap (annotated : Bool) (overlap annotation_overlap : ℚ) : ℚ :=
  if annotated then annotation_overlap else overlap

/-- The patch origins `extract_patches` generates along one axis of a tile of
side `T` pixels, for patch side `p` and overlap fraction `frac`. -/
def extractAxis (T p : ℕ) (frac : ℚ) : List ℕ :=
  axisPositions T p (p - pxOverlap p frac)

/-! ## Tile grid of `get_relevant_tiles` (tile_generator.py lines 181-265) -/

/-- A 2-D binary raster: numpy array of shape `(h, w)`, `pix r c = true` iff
the pixel at row `r`, column `c` is non-zero. -/
structure PixGrid where
  h : ℕ
  w : ℕ
  pix : ℕ → ℕ → Bool

/-- `np.count_nonzero(g[r0:r1, c0:c1])` with numpy's clamped slicing. -/
def countNonzero (g : PixGrid) (r0 r1 c0 c1 : ℕ) : ℕ :=
  (((List.range (min r1 g.h)).filter (fun r => decide (r0 ≤ r))).map (fun r =>
    (((List.range (min c1 g.w)).filter (fun c => decide (c0 ≤ c))).filter
      (fun c => g.pix r c)).length)).sum

/-- `g[r0:r1, c0:c1].size`: the pixel count of the clamped slice. -/
def sliceSize (g : PixGrid) (r0 r1 c0 c1 : ℕ) : ℕ :=
  (min r1 g.h - r0) * (min c1 g.w - c0)

/-- The row (or column) count of the tile grid, as computed by
`rows, row_residue = divmod(shape, tile_size); if row_residue: rows += 1`
(lines 182-188). -/
def gridRows (n tile_size : ℕ) : ℕ :=
  let q := n / tile_size
  let r := n % tile_size
  if r ≠ 0 then q + 1 else q

/-- Tissue coverage of the tile at grid cell `(row, col)`:
`np.count_nonzero(tile) / tile.size` over the clamped slice (line 213). -/
def tileCoverage (g : PixGrid) (ts row col : ℕ) : ℚ :=
  (countNonzero g (row * ts) (row * ts + ts) (col * ts) (col * ts + ts) : ℚ) /
    (sliceSize g (row * ts) (row * ts + ts) (col * ts) (col * ts + ts) : ℚ)

/-- Whether the tile at `(row, col)` meets any annotation-mask pixel
(lines 216-226); `none` models `annotation_dict is None`. -/
def tileAnnotated (ann : Option PixGrid) (ts row col : ℕ) : Bool :=
  match ann with
  | none => false
  | some a =>
      decide (0 < countNonzero a (row * ts) (row * ts + ts) (col * ts) (col * ts + ts))

/-- One entry of `relevant_tiles_dict` (lines 229-239). -/
structure Tile where
  x : ℕ
  y : ℕ
  size : ℕ
  level : ℕ
  annotated : Bool
deriving DecidableEq

/-- `WSIHandler.get_relevant_tiles`: walk the `rows × cols` grid and keep a
tile iff `tissue_coverage >= min_coverage or annotated` (line 228), recording
its pixel origin, size, level and annotated flag. -/
def get_relevant_tiles (mask : PixGrid) (ann : Option PixGrid) (tile_size : ℕ)
    (min_coverage : ℚ) (level : ℕ) : List Tile :=
  (List.range (gridRows mask.h tile_size)).flatMap (fun row =>
    (List.range (gridRows mask.w tile_size)).filterMap (fun col =>
      if tileCoverage mask tile_size row col ≥ min_coverage ∨
          tileAnnotated ann tile_size row col = true then
        some ⟨col * tile_size, row * tile_size, tile_size, level,
              tileAnnotated ann tile_size row col⟩
      else none))

/-- The index set of the clamped slice `[idx*ts : idx*ts + ts]` of an axis of
length `n`: the pixels a grid cell covers along that axis. -/
def inTileSlice (n ts idx i : ℕ) : Prop :=
  idx * ts ≤ i ∧ i < min (idx * ts + ts) n

/-! ## Label rules: `check_for_label` (tile_generator.py lines 267-287)

The source iterates the ordered `label_dict`, dispatching on the rule's
`"type"` string.  The `"<="` branch evaluates
`label_percentage <= label_percentage[label]["threshold"]`, which subscripts
the float `label_percentage` and raises `TypeError` before any comparison;
this is modelled as `Except.error ()`.  A rule whose type string is none of
the five operators is silently skipped, as in the source. -/

/-- One value of `label_dict`: the rule's operator string, threshold and
`annotated` class flag. -/
structure Rule where
  type : String
  threshold : ℚ
  annotated : Bool
deriving DecidableEq

/-- `WSIHandler.check_for_label`, with `cov` the precomputed
`label_percentage = np.count_nonzero(annotation_mask) / annotation_mask.size`.
Returns the first matching `(label, label_percentage)` pair, `none` for the
fall-through `return None, None`, and an error on the `"<="` branch. -/
def check_for_label : List (String × Rule) → ℚ → Except Unit (Option (String × ℚ))
  | [], _ => Except.ok none
  | (name, r) :: rest, cov =>
    if r.type = "==" then
      if r.threshold = cov then Except.ok (some (name, cov)) else check_for_label rest cov
    else if r.type = ">=" then
      if cov ≥ r.threshold then Except.ok (some (name, cov)) else check_for_label rest cov
    else if r.type = ">" then
      if cov > r.threshold then Except.ok (some (name, cov)) else check_for_label rest cov
    else if r.type = "<=" then
      Except.error ()
    else if r.type = "<" then
      if cov < r.threshold then Except.ok (some (name, cov)) else check_for_label rest cov
    else
      check_for_label rest cov

/-- Intended satisfaction of a label rule at coverage `cov`, following the
spec's operator table `{==, >=, >, <=, <}`. -/
def ruleSatisfied (r : Rule) (cov : ℚ) : Prop :=
  (r.type = "==" ∧ r.threshold = cov) ∨ (r.type = ">=" ∧ cov ≥ r.threshold) ∨
  (r.type = ">" ∧ cov > r.threshold) ∨ (r.type = "<=" ∧ cov ≤ r.threshold) ∨
  (r.type = "<" ∧ cov < r.threshold)

/-- The label-assignment step of `extract_patches` for one patch
(lines 536-550): with annotations, call `check_for_label` and keep the patch
only when the returned label is not `None`; without annotations, label it
`"unlabeled"` with `label_percentage = None`.  `Except.ok none` is the
dropped patch (not added to `patch_dict`, not written). -/
def patchLabelStep (hasAnn : Bool) (rules : List (String × Rule)) (cov : ℚ) :
    Except Unit (Option (String × Option ℚ)) :=
  if hasAnn then
    match check_for_label rules cov with
    | Except.error e => Except.error e
    | Except.ok (some (l, p)) => Except.ok (some (l, some p))
    | Except.ok none => Except.ok none
  else
    Except.ok (some ("unlabeled", none))

/-! ## `determine_tile_size` (tile_generator.py lines 166-179) -/

/-- `WSIHandler.determine_tile_size`: `tile_size_0` is
`(patch_size_microns / res_x) * patches_per_tile` in calibration mode and
`patches_per_tile * patch_size` otherwise; the result is
`int(tile_size_0 / int(level_downsamples[level]))`. -/
def determine_tile_size (use_non_pixel_lengths : Bool) (patch_size_microns res_x : ℚ)
    (patches_per_tile patch_size : ℕ) (downsample : ℚ) : ℤ :=
  let tile_size_0 : ℚ :=
    if use_non_pixel_lengths then (patch_size_microns / res_x) * (patches_per_tile : ℚ)
    else (patches_per_tile : ℚ) * (patch_size : ℚ)
  let downscale_factor : ℤ := pyInt downsample
  pyInt (tile_size_0 / (downscale_factor : ℚ))

/-! ## Calibrated patch size and resize (tile_generator.py lines 329-330, 406-411) -/

/-- `patch_size_px_x = int(np.round(patch_size_microns / res_x))`
(lines 329-330); `np.round` yields a whole float, so the outer `int` is the
identity on it. -/
def patch_size_px (patch_size_microns res : ℚ) : ℤ :=
  npRound (patch_size_microns / res)

/-- Pixel dimensions of a saved calibrated patch: when `config.calibration.resize`
is set, `cv2.resize(patch, (patch_size, patch_size))` makes both sides equal to
the configured target; otherwise the raw sides are kept (lines 406-411). -/
def savedPatchSize (resize : Bool) (target : ℕ) (raw_x raw_y : ℤ) : ℤ × ℤ :=
  if resize then ((target : ℤ), (target : ℤ)) else (raw_x, raw_y)

/-! ## `load_annotation` (tile_generator.py lines 96-129)

The embedding `load_annotation_file` takes the file extension together with
the structured content the two external parsers (`json.load`,
`xml.etree.ElementTree`) would deliver for that file. -/

/-- A polygon: the list of its `(x, y)` points. -/
abbrev Polygon := List (ℚ × ℚ)

/-- One entry of the geojson `features` array: its
`geometry.coordinates` list of rings. -/
structure GeoFeature where
  coordinates : List Polygon

/-- An XML `coord` element: its `X` and `Y` attributes, parsed as floats. -/
structure XmlCoord where
  x : ℚ
  y : ℚ

/-- An XML `subelem`: its attributes and its `coordinates` containers, each a
list of `coord` elements. -/
structure XmlSubelem where
  attrib : List (String × String)
  children : List (List XmlCoord)

/-- A top-level XML element of the export: a container of `subelem`s. -/
structure XmlElem where
  children : List XmlSubelem

/-- The polygon read from one XML `subelem`:
`[[float(coord.attrib["X"]), float(coord.attrib["Y"])] for ...]`
(lines 120-124). -/
def extractCoords (sub : XmlSubelem) : Polygon :=
  sub.children.flatMap (fun coords => coords.map (fun coord => (coord.x, coord.y)))

/-- `annotation_dict.update({k: v})` on an insertion-ordered dict modelled as
an association list: overwrite the value if the key exists, append otherwise. -/
def dictUpdate (d : List (ℕ × Polygon)) (k : ℕ) (v : Polygon) : List (ℕ × Polygon) :=
  if d.any (fun kv => kv.1 == k) then
    d.map (fun kv => if kv.1 = k then (k, v) else kv)
  else d ++ [(k, v)]

/-- The geojson branch (lines 101-106): for each `polygon_nb` in
`range(len(features))`, store `features[polygon_nb]["geometry"]["coordinates"][0]`. -/
def geoExtract (features : List GeoFeature) : List (ℕ × Polygon) :=
  (List.range features.length).foldl
    (fun d polygon_nb =>
      dictUpdate d polygon_nb ((features.getD polygon_nb ⟨[]⟩).coordinates.headD []))
    []

/-- One `subelem` step of the XML walk (lines 115-125): when the element has
attribute `Type == "Polygon"`, store its coordinates at the running
`polygon_nb` and increment the counter; otherwise skip it. -/
def xmlPolyStep (acc : List (ℕ × Polygon) × ℕ) (sub : XmlSubelem) :
    List (ℕ × Polygon) × ℕ :=
  if sub.attrib.lookup "Type" = some "Polygon" then
    (dictUpdate acc.1 acc.2 (extractCoords sub), acc.2 + 1)
  else acc

/-- One top-level element of the XML walk: `polygon_nb` is reset to `0` per
element (line 114), so later elements overwrite the keys of earlier ones. -/
def xmlElemFold (d : List (ℕ × Polygon)) (e : XmlElem) : List (ℕ × Polygon) :=
  (e.children.foldl xmlPolyStep (d, 0)).1

/-- The XML branch of `load_annotation` (lines 109-125). -/
def xmlExtract (root : List XmlElem) : List (ℕ × Polygon) :=
  root.foldl xmlElemFold []

/-- `WSIHandler.load_annotation`: dispatch on the file suffix; `.geojson` and
`.txt` use the geojson parse, `.xml` the XML walk, and any other extension
returns `None` (no annotations, no error). -/
def load_annotation_file (ext : String) (geo : List GeoFeature)
    (xmlRoot : List XmlElem) : Option (List (ℕ × Polygon)) :=
  if ext = ".geojson" ∨ ext = ".txt" then some (geoExtract geo)
  else if ext = ".xml" then some (xmlExtract xmlRoot)
  else none

/-! ## `WSIHandler.__init__` validation (tile_generator.py lines 26-49) -/

/-- Whether the five `assert` statements of `WSIHandler.__init__` all pass.
Line 34 of the source reads
`assert config["annotation_overlap"] >= 0 and config["overlap"] < 1`,
so the upper bound is tested on `overlap`, not on `annotation_overlap`. -/
def initAssertsPass (tissue_coverage : ℚ) (blocked_threads patches_per_tile : ℤ)
    (overlap annotation_overlap : ℚ) : Bool :=
  decide (1 ≥ tissue_coverage ∧ tissue_coverage ≥ 0) &&
  decide (blocked_threads ≥ 0) &&
  decide (patches_per_tile ≥ 1) &&
  decide (0 ≤ overlap ∧ overlap < 1) &&
  decide (annotation_overlap ≥ 0 ∧ overlap < 1)

/-! ## The unsplit tuple bug of `extract_calibrated_patches`
(tile_generator.py lines 388-402)

`extract_calibrated_patches` runs `label = self.check_for_label(...)` without
unpacking, so `label` is always a Python tuple — `(None, None)` when no rule
matched.  The guard `if label is not None` is then always true, and
`self.config["label_dict"][label]` looks up a tuple key in a dict keyed by
label name strings.  A small fragment of Python values models this. -/

/-- A fragment of Python runtime values: `None`, strings, floats (as `ℚ`)
and pairs. -/
inductive PyVal
  | pynone
  | pystr (s : String)
  | pyrat (q : ℚ)
  | pypair (a b : PyVal)
deriving DecidableEq

/-- Python's `x is None` test on the fragment. -/
def pyIsNone : PyVal → Bool
  | PyVal.pynone => true
  | _ => false

/-- Whether a value is a string: the shape of the keys of
`config["label_dict"]`. -/
def isPyStr : PyVal → Bool
  | PyVal.pystr _ => true
  | _ => false

/-- Lookup in a Python dict modelled as an association list; `none` is a
`KeyError`. -/
def pyLookup (d : List (PyVal × Bool)) (k : PyVal) : Option Bool :=
  match d with
  | [] => none
  | (k2, v) :: rest => if k2 = k then some v else pyLookup rest k

/-- The value `extract_calibrated_patches` binds to `label` at line 394: the
whole tuple returned by `check_for_label` — `(label, percentage)` on a match,
`(None, None)` on fall-through. -/
def check_for_label_tuple (rules : List (String × Rule)) (cov : ℚ) :
    Except Unit PyVal :=
  match check_for_label rules cov with
  | Except.error e => Except.error e
  | Except.ok (some (l, p)) => Except.ok (PyVal.pypair (PyVal.pystr l) (PyVal.pyrat p))
  | Except.ok none => Except.ok (PyVal.pypair PyVal.pynone PyVal.pynone)

/-- Lines 394-397 of `extract_calibrated_patches`: bind the tuple, test
`label is not None`, then read `self.config["label_dict"][label]["annotated"]`.
`cfg` is `config["label_dict"]` reduced to its `annotated` field; the `none`
lookup result is the `KeyError`. -/
def calibAnnotatedStep (cfg : List (PyVal × Bool)) (rules : List (String × Rule))
    (cov : ℚ) : Except Unit Bool :=
  match check_for_label_tuple rules cov with
  | Except.error e => Except.error e
  | Except.ok label =>
      if pyIsNone label then Except.ok false
      else
        match pyLookup cfg label with
        | some b => Except.ok b
        | none => Except.error ()

/-- All-background demonstration tissue mask (2 × 2, no tissue pixels). -/
def demoMask : PixGrid := ⟨2, 2, fun _ _ => false⟩

/-- Demonstration annotation mask with a single annotation pixel at `(0, 0)`. -/
def demoAnn : PixGrid := ⟨2, 2, fun r c => decide (r = 0 ∧ c = 0)⟩

/-! ## Helper lemmas on `ceilDiv` -/

theorem ceilDiv_pos {x b : ℕ} (hx : 0 < x) (hb : 0 < b) : 1 ≤ ceilDiv x b := by
  unfold ceilDiv
  rw [Nat.le_div_iff_mul_le hb]
  omega

theorem ceilDiv_eq_one {x b : ℕ} (hx : 0 < x) (hxb : x ≤ b) : ceilDiv x b = 1 := by
  unfold ceilDiv
  exact Nat.div_eq_of_lt_le (by omega) (by omega)

theorem ceilDiv_step {x b : ℕ} (hb : 0 < b) (hx : b < x) :
    ceilDiv x b = ceilDiv (x - b) b + 1 := by
  unfold ceilDiv
  rw [show x + b - 1 = (x - b + b - 1) + b from by omega, Nat.add_div_right _ hb]

theorem ceilDiv_le_ceilDiv {a b c : ℕ} (h : a ≤ b) : ceilDiv a c ≤ ceilDiv b c :=
  Nat.div_le_div_right (by omega)

/-! ## Structure of one patch axis -/

theorem axisPositionsAux_char (T p s : ℕ) (hs : 0 < s) (hsp : s ≤ p) :
    ∀ fuel col, col * s + (p - s) < T →
      ceilDiv (T - (p - s) - col * s) s ≤ fuel →
      axisPositionsAux T p s fuel col =
        ((List.range (ceilDiv (T - (p - s) - col * s) s - 1)).map
          (fun i => (col + i) * s)) ++ [T - p] := by
  intro fuel
  induction fuel with
  | zero =>
    intro col hlt hle
    have h1 : 1 ≤ ceilDiv (T - (p - s) - col * s) s := ceilDiv_pos (by omega) hs
    omega
  | succ n ih =>
    intro col hlt hle
    by_cases hstop : T ≤ col * s + p
    · have h1 : ceilDiv (T - (p - s) - col * s) s = 1 :=
        ceilDiv_eq_one (by omega) (by omega)
      simp [axisPositionsAux, if_pos hstop, h1]
    · push_neg at hstop
      have hmul : (col + 1) * s = col * s + s := by ring
      have hlt2 : (col + 1) * s + (p - s) < T := by omega
      have hstep : ceilDiv (T - (p - s) - col * s) s
          = ceilDiv (T - (p - s) - (col + 1) * s) s + 1 := by
        rw [ceilDiv_step hs (by omega)]
        congr 2
        omega
      have h1 : 1 ≤ ceilDiv (T - (p - s) - (col + 1) * s) s :=
        ceilDiv_pos (by omega) hs
      rw [axisPositionsAux, if_neg (by omega), ih (col + 1) hlt2 (by omega), hstep]
      rw [show ceilDiv (T - (p - s) - (col + 1) * s) s + 1 - 1
            = (ceilDiv (T - (p - s) - (col + 1) * s) s - 1) + 1 from by omega]
      rw [List.range_succ_eq_map, List.map_cons, List.map_map]
      simp only [Nat.add_zero, List.cons_append]
      have hfun : ∀ i ∈ List.range (ceilDiv (T - (p - s) - (col + 1) * s) s - 1),
          (col + 1 + i) * s = ((fun i => (col + i) * s) ∘ Nat.succ) i := by
        intro i _
        simp only [Function.comp_apply, Nat.succ_eq_add_one]
        ring
      rw [List.map_congr_left hfun]

theorem axisPositions_char (T p s : ℕ) (hs : 0 < s) (hsp : s ≤ p) (hpT : p ≤ T) :
    axisPositions T p s =
      ((List.range (ceilDiv (T - (p - s)) s - 1)).map (fun i => i * s)) ++ [T - p] := by
  have h0 : 0 * s + (p - s) < T := by omega
  have hfuel : ceilDiv (T - (p - s) - 0 * s) s ≤ ceilDiv T s :=
    ceilDiv_le_ceilDiv (by omega)
  unfold axisPositions
  rw [axisPositionsAux_char T p s hs hsp (ceilDiv T s) 0 h0 hfuel]
  simp

theorem axisPositionsAux_mem_le (T p s : ℕ) (hpT : p ≤ T) :
    ∀ fuel col x, x ∈ axisPositionsAux T p s fuel col → x + p ≤ T := by
  intro fuel
  induction fuel with
  | zero => intro col x hx; simp [axisPositionsAux] at hx
  | succ n ih =>
    intro col x hx
    rw [axisPositionsAux] at hx
    by_cases hstop : T ≤ col * s + p
    · rw [if_pos hstop] at hx
      simp at hx
      omega
    · rw [if_neg hstop] at hx
      rcases List.mem_cons.mp hx with h | h
      · omega
      · exact ih _ x h

/-- C1 (amended): for a tile of side `T`, patch side `p` and overlap fraction
`frac ∈ [0, 1)` (the annotation overlap when the tile is annotated, the base
overlap otherwise), with `o = int(p * frac)` and stride `s = p - o`,
`extract_patches` generates `ceil((T - o) / s)` patch origins per axis — equal
to the claimed `ceil(T / s)` only when `o = 0`; the origin of a patch that
would extend past the tile boundary is clamped so that the last patch per
axis ends exactly at the tile edge, and no generated patch window exceeds the
tile bounds. -/
theorem c1_extract_axis_amended (a : Bool) (ov aov : ℚ) (T p : ℕ)
    (hpT : p ≤ T) (hp : 0 < p)
    (_h0 : 0 ≤ tileOverlap a ov aov) (h1 : tileOverlap a ov aov < 1) :
    (extractAxis T p (tileOverlap a ov aov)).length
        = ceilDiv (T - pxOverlap p (tileOverlap a ov aov))
            (p - pxOverlap p (tileOverlap a ov aov))
    ∧ (extractAxis T p (tileOverlap a ov aov)).getLastD 0 = T - p
    ∧ ∀ x ∈ extractAxis T p (tileOverlap a ov aov), x + p ≤ T := by
  set frac := tileOverlap a ov aov with hfrac
  have hop : pxOverlap p frac < p := by
    unfold pxOverlap
    have hlt : (p : ℚ) * frac < (p : ℚ) * 1 := by
      apply mul_lt_mul_of_pos_left h1
      exact_mod_cast hp
    rw [mul_one] at hlt
    have hfl : ⌊(p : ℚ) * frac⌋ < (p : ℤ) := by
      apply Int.floor_lt.mpr
      exact_mod_cast hlt
    rw [Int.toNat_lt' (by omega)]
    exact_mod_cast hfl
  set o := pxOverlap p frac with ho
  set s := p - o with hs
  have hs0 : 0 < s := by omega
  have hsp : s ≤ p := by omega
  have hps : p - s = o := by omega
  have hchar := axisPositions_char T p s hs0 hsp hpT
  rw [hps] at hchar
  refine ⟨?_, ?_, ?_⟩
  · show (axisPositions T p s).length = ceilDiv (T - o) s
    rw [hchar]
    have hone : 1 ≤ ceilDiv (T - o) s := ceilDiv_pos (by omega) hs0
    simp only [List.length_append, List.length_map, List.length_range,
      List.length_singleton]
    omega
  · show (axisPositions T p s).getLastD 0 = T - p
    rw [hchar]
    exact List.getLastD_concat _ _ _
  · intro x hx
    exact axisPositionsAux_mem_le T p s hpT _ _ x hx

/-- C1 (counterexample): with tile side 512, patch size 256 and overlap
fraction 1/2 the stride is 128 and the claimed per-axis patch count
`ceil(512 / 128) = 4`, but `extract_patches` generates only 3 patch origins
per axis — the clamp-and-break fires at the third column. -/
theorem c1_count_counterexample :
    (extractAxis 512 256 (1/2)).length = 3
    ∧ ceilDiv 512 (256 - pxOverlap 256 (1/2)) = 4
    ∧ (extractAxis 512 256 (1/2)).length
        ≠ ceilDiv 512 (256 - pxOverlap 256 (1/2)) := by
  have hpx : pxOverlap 256 (1/2) = 128 := by
    unfold pxOverlap
    norm_num
    rfl
  refine ⟨?_, ?_, ?_⟩
  · rw [extractAxis, hpx]
    decide
  · rw [hpx]
    decide
  · rw [extractAxis, hpx]
    decide

/-- C1 (witness): the amended theorem instantiated at an unannotated tile of
side 512, patch size 256 and overlap 0. -/
theorem c1_extract_axis_witness :
    (extractAxis 512 256 (tileOverlap false 0 0)).length
        = ceilDiv (512 - pxOverlap 256 (tileOverlap false 0 0))
            (256 - pxOverlap 256 (tileOverlap false 0 0))
    ∧ (extractAxis 512 256 (tileOverlap false 0 0)).getLastD 0 = 512 - 256
    ∧ ∀ x ∈ extractAxis 512 256 (tileOverlap false 0 0), x + 256 ≤ 512 :=
  c1_extract_axis_amended false 0 0 512 256 (by omega) (by omega)
    (by norm_num [tileOverlap]) (by norm_num [tileOverlap])

/-- C2: a grid cell's tile is kept by `get_relevant_tiles` iff its tissue
coverage (non-zero pixels of the clamped slice over the slice's pixel count)
reaches `min_coverage` or the tile meets at least one annotation-mask pixel;
the kept tile records exactly that annotation flag in its `annotated` field. -/
theorem c2_tile_selection (mask : PixGrid) (ann : Option PixGrid) (ts : ℕ) (minCov : ℚ)
    (level row col : ℕ) (hts : 0 < ts)
    (hrow : row < gridRows mask.h ts) (hcol : col < gridRows mask.w ts) :
    (Tile.mk (col * ts) (row * ts) ts level (tileAnnotated ann ts row col)
        ∈ get_relevant_tiles mask ann ts minCov level)
      ↔ (tileCoverage mask ts row col ≥ minCov ∨ tileAnnotated ann ts row col = true) := by
  unfold get_relevant_tiles
  rw [List.mem_flatMap]
  constructor
  · rintro ⟨row', hrow', hmem⟩
    rw [List.mem_filterMap] at hmem
    obtain ⟨col', hcol', heq⟩ := hmem
    rw [Option.ite_none_right_eq_some] at heq
    obtain ⟨hcond, htile⟩ := heq
    rw [Option.some.injEq, Tile.mk.injEq] at htile
    obtain ⟨hx, hy, -, -, -⟩ := htile
    have hc' : col' = col := Nat.eq_of_mul_eq_mul_right hts hx
    have hr' : row' = row := Nat.eq_of_mul_eq_mul_right hts hy
    rw [hc', hr'] at hcond
    exact hcond
  · intro hcond
    refine ⟨row, List.mem_range.mpr hrow, ?_⟩
    rw [List.mem_filterMap]
    exact ⟨col, List.mem_range.mpr hcol, by rw [if_pos hcond]⟩

/-- C2 (witness): a 2 × 2 all-background tile (tissue coverage 0) with one
annotation pixel, `min_coverage = 1/2`: the tile is kept. -/
theorem c2_tile_selection_witness :
    tileCoverage demoMask 2 0 0 = 0
    ∧ (Tile.mk 0 0 2 0 (tileAnnotated (some demoAnn) 2 0 0)
        ∈ get_relevant_tiles demoMask (some demoAnn) 2 (1/2) 0) := by
  constructor
  · have h : countNonzero demoMask (0 * 2) (0 * 2 + 2) (0 * 2) (0 * 2 + 2) = 0 := rfl
    unfold tileCoverage
    rw [h]
    norm_num
  · exact (c2_tile_selection demoMask (some demoAnn) 2 (1/2) 0 0 0 (by omega)
      (by decide) (by decide)).mpr (Or.inr rfl)

/-! ## Helper lemmas for the grid partition -/

theorem gridRows_eq_ceilDiv (n ts : ℕ) (hts : 0 < ts) : gridRows n ts = ceilDiv n ts := by
  show (if n % ts ≠ 0 then n / ts + 1 else n / ts) = ceilDiv n ts
  unfold ceilDiv
  have hmod := Nat.div_add_mod n ts
  have hlt : n % ts < ts := Nat.mod_lt n hts
  set q := n / ts with hq
  set m := n % ts with hm
  have hmul : ts * (q + 1) = ts * q + ts := by ring
  by_cases hr : m = 0
  · rw [if_neg (by omega)]
    rw [show n + ts - 1 = ts * q + (ts - 1) from by omega]
    rw [Nat.mul_add_div hts, Nat.div_eq_of_lt (by omega)]
    omega
  · rw [if_pos hr]
    rw [show n + ts - 1 = ts * (q + 1) + (m - 1) from by omega]
    rw [Nat.mul_add_div hts, Nat.div_eq_of_lt (by omega)]

theorem div_lt_ceilDiv {i n ts : ℕ} (hts : 0 < ts) (hi : i < n) :
    i / ts < ceilDiv n ts := by
  have h1 : ceilDiv (i + 1) ts ≤ ceilDiv n ts := ceilDiv_le_ceilDiv (by omega)
  have h2 : ceilDiv (i + 1) ts = i / ts + 1 := by
    unfold ceilDiv
    rw [show i + 1 + ts - 1 = i + ts from by omega, Nat.add_div_right _ hts]
  omega

theorem inTileSlice_idx_eq {n ts idx i : ℕ} (_hts : 0 < ts) (h : inTileSlice n ts idx i) :
    idx = i / ts := by
  obtain ⟨h1, h2⟩ := h
  have h2' : i < idx * ts + ts := lt_of_lt_of_le h2 (min_le_left _ _)
  exact (Nat.div_eq_of_lt_le h1
    (by have hmul : (idx + 1) * ts = idx * ts + ts := by ring
        omega)).symm

theorem inTileSlice_self {n ts i : ℕ} (hts : 0 < ts) (hi : i < n) :
    inTileSlice n ts (i / ts) i := by
  have hmod := Nat.div_add_mod i ts
  have hlt : i % ts < ts := Nat.mod_lt i hts
  have hcomm : ts * (i / ts) = (i / ts) * ts := mul_comm _ _
  constructor
  · omega
  · apply lt_min
    · omega
    · exact hi

/-- C5: for a positive tile size, the grid walked by `get_relevant_tiles` has
exactly `ceil(height / tile_size)` rows and `ceil(width / tile_size)` columns
(the `divmod`-plus-residue computation equals the ceiling), every mask pixel
lies in exactly one grid cell's clamped slice, and every clamped slice stays
within the mask bounds (numpy slicing clamps, never reads out of bounds). -/
theorem c5_grid_partition (h w ts : ℕ) (hts : 0 < ts) :
    gridRows h ts = ceilDiv h ts
    ∧ gridRows w ts = ceilDiv w ts
    ∧ (∀ r c, r < h → c < w →
        ∃! rc : ℕ × ℕ, rc.1 < gridRows h ts ∧ rc.2 < gridRows w ts
          ∧ inTileSlice h ts rc.1 r ∧ inTileSlice w ts rc.2 c)
    ∧ (∀ idx i, inTileSlice h ts idx i → i < h) := by
  refine ⟨gridRows_eq_ceilDiv h ts hts, gridRows_eq_ceilDiv w ts hts, ?_, ?_⟩
  · intro r c hr hc
    refine ⟨(r / ts, c / ts),
      ⟨?_, ?_, inTileSlice_self hts hr, inTileSlice_self hts hc⟩, ?_⟩
    · rw [gridRows_eq_ceilDiv h ts hts]
      exact div_lt_ceilDiv hts hr
    · rw [gridRows_eq_ceilDiv w ts hts]
      exact div_lt_ceilDiv hts hc
    · rintro ⟨i1, i2⟩ ⟨hb1, hb2, hs1, hs2⟩
      have e1 := inTileSlice_idx_eq hts hs1
      have e2 := inTileSlice_idx_eq hts hs2
      simp only [Prod.mk.injEq]
      exact ⟨e1, e2⟩
  · intro idx i hin
    exact lt_of_lt_of_le hin.2 (min_le_right _ _)

/-- C5 (witness): the grid row count for a 1000-pixel mask side and 500-pixel
tiles, via the theorem. -/
theorem c5_grid_partition_witness : gridRows 1000 500 = ceilDiv 1000 500 :=
  (c5_grid_partition 1000 1000 500 (by omega)).1

/-! ## Helper lemmas on `check_for_label` -/

theorem check_skip (name : String) (r : Rule) (rest : List (String × Rule)) (cov : ℚ)
    (hns : ¬ ruleSatisfied r cov) (hnle : r.type ≠ "<=") :
    check_for_label ((name, r) :: rest) cov = check_for_label rest cov := by
  unfold ruleSatisfied at hns
  have h1 : r.type = "==" → ¬ (r.threshold = cov) := fun ht hc => hns (Or.inl ⟨ht, hc⟩)
  have h2 : r.type = ">=" → ¬ (cov ≥ r.threshold) :=
    fun ht hc => hns (Or.inr (Or.inl ⟨ht, hc⟩))
  have h3 : r.type = ">" → ¬ (cov > r.threshold) :=
    fun ht hc => hns (Or.inr (Or.inr (Or.inl ⟨ht, hc⟩)))
  have h5 : r.type = "<" → ¬ (cov < r.threshold) :=
    fun ht hc => hns (Or.inr (Or.inr (Or.inr (Or.inr ⟨ht, hc⟩))))
  simp only [check_for_label]
  by_cases t1 : r.type = "=="
  · rw [if_pos t1, if_neg (h1 t1)]
  · rw [if_neg t1]
    by_cases t2 : r.type = ">="
    · rw [if_pos t2, if_neg (h2 t2)]
    · rw [if_neg t2]
      by_cases t3 : r.type = ">"
      · rw [if_pos t3, if_neg (h3 t3)]
      · rw [if_neg t3, if_neg hnle]
        by_cases t5 : r.type = "<"
        · rw [if_pos t5, if_neg (h5 t5)]
        · rw [if_neg t5]

theorem check_hit (name : String) (r : Rule) (rest : List (String × Rule)) (cov : ℚ)
    (hs : ruleSatisfied r cov) (hnle : r.type ≠ "<=") :
    check_for_label ((name, r) :: rest) cov = Except.ok (some (name, cov)) := by
  unfold ruleSatisfied at hs
  simp only [check_for_label]
  rcases hs with ⟨ht, hc⟩ | ⟨ht, hc⟩ | ⟨ht, hc⟩ | ⟨ht, hc⟩ | ⟨ht, hc⟩
  · rw [if_pos ht, if_pos hc]
  · rw [if_neg (by rw [ht]; decide), if_pos ht, if_pos hc]
  · rw [if_neg (by rw [ht]; decide), if_neg (by rw [ht]; decide), if_pos ht, if_pos hc]
  · exact absurd ht hnle
  · rw [if_neg (by rw [ht]; decide), if_neg (by rw [ht]; decide),
        if_neg (by rw [ht]; decide), if_neg hnle, if_pos ht, if_pos hc]

theorem check_first_match (pre post : List (String × Rule)) (name : String) (r : Rule)
    (cov : ℚ)
    (hpre : ∀ q ∈ pre, ¬ ruleSatisfied q.2 cov ∧ q.2.type ≠ "<=")
    (hnle : r.type ≠ "<=") (hsat : ruleSatisfied r cov) :
    check_for_label (pre ++ (name, r) :: post) cov = Except.ok (some (name, cov)) := by
  revert hpre
  induction pre with
  | nil =>
    intro _
    simpa using check_hit name r post cov hsat hnle
  | cons q pre' ih =>
    intro hpre
    obtain ⟨qn, qr⟩ := q
    have hq := hpre (qn, qr) (List.mem_cons_self _ _)
    rw [List.cons_append, check_skip qn qr _ cov hq.1 hq.2]
    exact ih (fun q2 hq2 => hpre q2 (List.mem_cons_of_mem _ hq2))

theorem check_no_match (rules : List (String × Rule)) (cov : ℚ)
    (h : ∀ q ∈ rules, ¬ ruleSatisfied q.2 cov ∧ q.2.type ≠ "<=") :
    check_for_label rules cov = Except.ok none := by
  revert h
  induction rules with
  | nil => intro _; rfl
  | cons q rest ih =>
    intro h
    obtain ⟨qn, qr⟩ := q
    have hq := h (qn, qr) (List.mem_cons_self _ _)
    rw [check_skip qn qr _ cov hq.1 hq.2]
    exact ih (fun q2 hq2 => h q2 (List.mem_cons_of_mem _ hq2))

/-- C3 (counterexample): a label table whose first rule has type `"<="` and is
satisfied at coverage 0 (`0 ≤ 1/2`): the claim says the patch gets that label,
but the label-assignment step raises (the `"<="` branch subscripts a float)
instead of returning the satisfied rule or dropping the patch. -/
theorem c3_first_match_counterexample :
    ruleSatisfied ⟨"<=", 1/2, true⟩ (0 : ℚ)
    ∧ patchLabelStep true [("low", ⟨"<=", 1/2, true⟩)] 0 = Except.error () := by
  constructor
  · unfold ruleSatisfied
    exact Or.inr (Or.inr (Or.inr (Or.inl ⟨rfl, by norm_num⟩)))
  · rfl

/-- C3 (amended): provided the evaluation reaches no `"<="` rule (that branch
raises, see the `"<="` defect), label assignment in `extract_patches` returns
the first satisfied rule of the ordered table with its coverage; when no rule
is satisfied and annotations exist, the patch is dropped (`Except.ok none`:
not added to the patch dict, not written); when no annotations exist, every
patch is labeled `"unlabeled"`. -/
theorem c3_label_assignment_amended :
    (∀ (pre post : List (String × Rule)) (name : String) (r : Rule) (cov : ℚ),
      (∀ q ∈ pre, ¬ ruleSatisfied q.2 cov ∧ q.2.type ≠ "<=") →
      r.type ≠ "<=" → ruleSatisfied r cov →
      patchLabelStep true (pre ++ (name, r) :: post) cov
        = Except.ok (some (name, some cov)))
    ∧ (∀ (rules : List (String × Rule)) (cov : ℚ),
      (∀ q ∈ rules, ¬ ruleSatisfied q.2 cov ∧ q.2.type ≠ "<=") →
      patchLabelStep true rules cov = Except.ok none)
    ∧ (∀ (rules : List (String × Rule)) (cov : ℚ),
      patchLabelStep false rules cov = Except.ok (some ("unlabeled", none))) := by
  refine ⟨?_, ?_, ?_⟩
  · intro pre post name r cov hpre hnle hsat
    unfold patchLabelStep
    rw [if_pos rfl, check_first_match pre post name r cov hpre hnle hsat]
  · intro rules cov h
    unfold patchLabelStep
    rw [if_pos rfl, check_no_match rules cov h]
  · intro rules cov
    rfl

/-- C3 (witness): the amended theorem at a one-rule table `tumor: >= 1/2` and
coverage 1 — the patch is labeled `tumor` with coverage 1. -/
theorem c3_label_assignment_witness :
    patchLabelStep true [("tumor", ⟨">=", 1/2, true⟩)] 1
      = Except.ok (some ("tumor", some 1)) :=
  c3_label_assignment_amended.1 [] [] "tumor" ⟨">=", 1/2, true⟩ 1 (by simp)
    (by decide) (Or.inr (Or.inl ⟨rfl, by norm_num⟩))

/-- C4 (counterexample): a table whose first applicable rule has type `"=="`:
evaluating that branch performs the intended comparison against the rule's own
threshold and returns normally — it does not reach an error, refuting the
claim for the `"=="` type. -/
theorem c4_eq_branch_counterexample :
    check_for_label [("A", ⟨"==", 0, true⟩)] 0 = Except.ok (some ("A", 0))
    ∧ check_for_label [("A", ⟨"==", 0, true⟩)] 0 ≠ Except.error () := by
  constructor
  · rfl
  · intro hcontra
    rw [show check_for_label [("A", ⟨"==", 0, true⟩)] 0
          = Except.ok (some ("A", 0)) from rfl] at hcontra
    exact Except.noConfusion hcontra

/-- C4 (amended): only the `"<="` branch of `check_for_label` references the
threshold through the candidate `label_percentage`: whenever the ordered
evaluation reaches a rule of type `"<="`, it raises (float subscript) instead
of comparing; the `"=="` branch reads the rule's own threshold from
`label_dict` and compares it to the coverage as intended. -/
theorem c4_le_branch_amended :
    (∀ (pre post : List (String × Rule)) (name : String) (r : Rule) (cov : ℚ),
      (∀ q ∈ pre, ¬ ruleSatisfied q.2 cov ∧ q.2.type ≠ "<=") →
      r.type = "<=" →
      check_for_label (pre ++ (name, r) :: post) cov = Except.error ())
    ∧ (∀ (name : String) (t : ℚ) (a : Bool) (cov : ℚ),
      check_for_label [(name, ⟨"==", t, a⟩)] cov
        = if t = cov then Except.ok (some (name, cov)) else Except.ok none) := by
  refine ⟨?_, ?_⟩
  · intro pre post name r cov hpre hle
    revert hpre
    induction pre with
    | nil =>
      intro _
      simp only [List.nil_append]
      simp only [check_for_label]
      rw [if_neg (by rw [hle]; decide), if_neg (by rw [hle]; decide),
          if_neg (by rw [hle]; decide), if_pos hle]
    | cons q pre' ih =>
      intro hpre
      obtain ⟨qn, qr⟩ := q
      have hq := hpre (qn, qr) (List.mem_cons_self _ _)
      rw [List.cons_append, check_skip qn qr _ cov hq.1 hq.2]
      exact ih (fun q2 hq2 => hpre q2 (List.mem_cons_of_mem _ hq2))
  · intro name t a cov
    by_cases hc : t = cov
    · rw [if_pos hc]
      simp only [check_for_label]
      rw [if_pos trivial, if_pos hc]
    · rw [if_neg hc]
      simp only [check_for_label]
      rw [if_pos trivial, if_neg hc]

/-- C4 (witness): a table whose first rule has type `"<="` makes
`check_for_label` raise. -/
theorem c4_le_branch_witness :
    check_for_label [("low", ⟨"<=", 0, true⟩)] 0 = Except.error () :=
  c4_le_branch_amended.1 [] [] "low" ⟨"<=", 0, true⟩ 0 (by simp) rfl

/-- C6 (counterexample): pixel mode with `patches_per_tile = 1`,
`patch_size = 5` and downsample factor 3: the source computes
`int(5 / 3) = 1`, while the claimed `round(1 × 5 / 3) = 2`. -/
theorem c6_rounding_counterexample :
    determine_tile_size false 0 1 1 5 3 = 1
    ∧ round ((1 * 5 : ℚ) / 3) = 2
    ∧ determine_tile_size false 0 1 1 5 3 ≠ round ((1 * 5 : ℚ) / 3) := by
  have h1 : determine_tile_size false 0 1 1 5 3 = 1 := by
    simp only [determine_tile_size]
    rw [if_neg Bool.false_ne_true]
    unfold pyInt
    norm_num
  have h2 : round ((1 * 5 : ℚ) / 3) = 2 := by norm_num [round_eq]
  refine ⟨h1, h2, ?_⟩
  rw [h1, h2]
  decide

/-- C6 (amended): `determine_tile_size` truncates, not rounds:
it returns `floor(tile_size_0 / floor(downsample))` (Python `int`, truncation,
applied to both the downsample factor and the final quotient), with
`tile_size_0 = (patch_size_microns / res_x) * patches_per_tile` in calibration
mode (the quotient itself exact, unrounded) and
`patches_per_tile * patch_size` in pixel mode. -/
theorem c6_tile_size_amended (psm res_x : ℚ) (ppt ps : ℕ) (ds : ℚ)
    (hds : 1 ≤ ds) (hpsm : 0 ≤ psm) (hres : 0 < res_x) :
    determine_tile_size true psm res_x ppt ps ds
        = ⌊((psm / res_x) * (ppt : ℚ)) / ((⌊ds⌋ : ℤ) : ℚ)⌋
    ∧ determine_tile_size false psm res_x ppt ps ds
        = ⌊((ppt : ℚ) * (ps : ℚ)) / ((⌊ds⌋ : ℤ) : ℚ)⌋ := by
  have hds0 : (0 : ℚ) ≤ ds := le_trans zero_le_one hds
  have hpyds : pyInt ds = ⌊ds⌋ := if_pos hds0
  have hfpos : (0 : ℤ) < ⌊ds⌋ := by
    have hone : (1 : ℤ) ≤ ⌊ds⌋ := by
      rw [Int.le_floor]
      exact_mod_cast hds
    omega
  have hfq : (0 : ℚ) ≤ ((⌊ds⌋ : ℤ) : ℚ) := by exact_mod_cast le_of_lt hfpos
  constructor
  · simp only [determine_tile_size]
    rw [if_pos trivial, hpyds]
    have hnum : (0 : ℚ) ≤ (psm / res_x) * (ppt : ℚ) :=
      mul_nonneg (div_nonneg hpsm (le_of_lt hres)) (Nat.cast_nonneg ppt)
    unfold pyInt
    rw [if_pos (div_nonneg hnum hfq)]
  · simp only [determine_tile_size]
    rw [if_neg Bool.false_ne_true, hpyds]
    have hnum : (0 : ℚ) ≤ (ppt : ℚ) * (ps : ℚ) :=
      mul_nonneg (Nat.cast_nonneg ppt) (Nat.cast_nonneg ps)
    unfold pyInt
    rw [if_pos (div_nonneg hnum hfq)]

/-- C6 (witness): the amended theorem at calibration mode with
`patch_size_microns = 128`, slide resolution 1/2 micron per pixel,
4 patches per tile and downsample factor 4. -/
theorem c6_tile_size_witness :
    determine_tile_size true 128 (1/2) 4 0 4
        = ⌊(((128 : ℚ) / (1/2)) * ((4 : ℕ) : ℚ)) / ((⌊(4 : ℚ)⌋ : ℤ) : ℚ)⌋ :=
  (c6_tile_size_amended 128 (1/2) 4 0 4 (by norm_num) (by norm_num) (by norm_num)).1

/-- C7: in calibration mode a slide with 0.5 microns per pixel and target
`patch_size_microns = 128` gives a patch side of exactly
`int(np.round(128 / 0.5)) = 256` pixels; and with the canonical resize active
at target 224, every saved patch has final pixel dimensions 224 × 224
regardless of its raw size. -/
theorem c7_calibration_scenario :
    patch_size_px 128 (1/2) = 256
    ∧ ∀ rx ry : ℤ, savedPatchSize true 224 rx ry = (224, 224) := by
  constructor
  · unfold patch_size_px npRound
    norm_num
  · intro rx ry
    rfl

/-- C9 (code bug): the configuration with `tissue_coverage = 1/2`,
`blocked_threads = 0`, `patches_per_tile = 1`, `overlap = 1/2` and
`annotation_overlap = 3/2` passes all `__init__` asserts even though
`annotation_overlap ≥ 1`: line 34 re-checks `overlap < 1` instead of
`annotation_overlap < 1`, contradicting its own assertion message. -/
theorem c9_annotation_overlap_bug :
    initAssertsPass (1/2) 0 1 (1/2) (3/2) = true
    ∧ ¬ ((3/2 : ℚ) < 1) := by
  constructor
  · unfold initAssertsPass
    simp only [Bool.and_eq_true, decide_eq_true_eq]
    norm_num
  · norm_num

/-! ## Helper lemmas for the annotation parsers -/

theorem mem_dictUpdate {d : List (ℕ × Polygon)} {k : ℕ} {v : Polygon}
    {kv : ℕ × Polygon} (h : kv ∈ dictUpdate d k v) : kv ∈ d ∨ kv.2 = v := by
  unfold dictUpdate at h
  by_cases hc : d.any (fun kv2 => kv2.1 == k)
  · rw [if_pos hc] at h
    rcases List.mem_map.mp h with ⟨kv2, hkv2, heq⟩
    by_cases h2 : kv2.1 = k
    · rw [if_pos h2] at heq
      right
      rw [← heq]
    · rw [if_neg h2] at heq
      left
      rwa [← heq]
  · rw [if_neg hc] at h
    rcases List.mem_append.mp h with h3 | h3
    · left
      exact h3
    · right
      rw [List.mem_singleton.mp h3]

theorem xmlPolyStep_fold_mem (subs : List XmlSubelem) :
    ∀ (acc : List (ℕ × Polygon) × ℕ) (kv : ℕ × Polygon),
      kv ∈ (subs.foldl xmlPolyStep acc).1 →
      kv ∈ acc.1 ∨ ∃ sub ∈ subs,
        sub.attrib.lookup "Type" = some "Polygon" ∧ kv.2 = extractCoords sub := by
  induction subs with
  | nil =>
    intro acc kv h
    left
    simpa using h
  | cons s rest ih =>
    intro acc kv h
    rw [List.foldl_cons] at h
    rcases ih _ kv h with h2 | ⟨sub, hsub, hpoly, hval⟩
    · unfold xmlPolyStep at h2
      by_cases hp : s.attrib.lookup "Type" = some "Polygon"
      · rw [if_pos hp] at h2
        rcases mem_dictUpdate h2 with h3 | h3
        · left
          exact h3
        · right
          exact ⟨s, List.mem_cons_self _ _, hp, h3⟩
      · rw [if_neg hp] at h2
        left
        exact h2
    · right
      exact ⟨sub, List.mem_cons_of_mem _ hsub, hpoly, hval⟩

theorem xmlExtract_fold_mem (elems : List XmlElem) :
    ∀ (d : List (ℕ × Polygon)) (kv : ℕ × Polygon),
      kv ∈ elems.foldl xmlElemFold d →
      kv ∈ d ∨ ∃ e ∈ elems, ∃ sub ∈ e.children,
        sub.attrib.lookup "Type" = some "Polygon" ∧ kv.2 = extractCoords sub := by
  induction elems with
  | nil =>
    intro d kv h
    left
    simpa using h
  | cons e rest ih =>
    intro d kv h
    rw [List.foldl_cons] at h
    rcases ih _ kv h with h2 | ⟨e2, he2, sub, hsub, hpoly, hval⟩
    · unfold xmlElemFold at h2
      rcases xmlPolyStep_fold_mem e.children (d, 0) kv h2 with h3 | ⟨sub, hsub, hpoly, hval⟩
      · left
        exact h3
      · right
        exact ⟨e, List.mem_cons_self _ _, sub, hsub, hpoly, hval⟩
    · right
      exact ⟨e2, List.mem_cons_of_mem _ he2, sub, hsub, hpoly, hval⟩

/-- C8: `load_annotation` dispatches on the extension — `.geojson` and `.txt`
parse the JSON-like polygon export, `.xml` walks the XML export retaining only
subelements attributed `Type == "Polygon"` (every stored polygon comes from
such a subelement) — and any other extension yields the no-annotations result
`none` rather than an error. -/
theorem c8_annotation_formats :
    (∀ (geo : List GeoFeature) (xmlRoot : List XmlElem),
        load_annotation_file ".geojson" geo xmlRoot = some (geoExtract geo)
        ∧ load_annotation_file ".txt" geo xmlRoot = some (geoExtract geo)
        ∧ load_annotation_file ".xml" geo xmlRoot = some (xmlExtract xmlRoot))
    ∧ (∀ (xmlRoot : List XmlElem) (kv : ℕ × Polygon), kv ∈ xmlExtract xmlRoot →
        ∃ e ∈ xmlRoot, ∃ sub ∈ e.children,
          sub.attrib.lookup "Type" = some "Polygon" ∧ kv.2 = extractCoords sub)
    ∧ (∀ (ext : String) (geo : List GeoFeature) (xmlRoot : List XmlElem),
        ext ≠ ".geojson" → ext ≠ ".txt" → ext ≠ ".xml" →
        load_annotation_file ext geo xmlRoot = none) := by
  refine ⟨?_, ?_, ?_⟩
  · intro geo xmlRoot
    refine ⟨?_, ?_, ?_⟩
    · unfold load_annotation_file
      rw [if_pos (Or.inl rfl)]
    · unfold load_annotation_file
      rw [if_pos (Or.inr rfl)]
    · unfold load_annotation_file
      rw [if_neg (by simp), if_pos rfl]
  · intro xmlRoot kv h
    unfold xmlExtract at h
    rcases xmlExtract_fold_mem xmlRoot [] kv h with h2 | h2
    · simp at h2
    · exact h2
  · intro ext geo xmlRoot h1 h2 h3
    unfold load_annotation_file
    rw [if_neg (by simp [h1, h2]), if_neg h3]

/-- C8 (witness): an unsupported extension `.png` yields `none`. -/
theorem c8_annotation_formats_witness :
    load_annotation_file ".png" [] [] = none :=
  c8_annotation_formats.2.2 ".png" [] [] (by decide) (by decide) (by decide)

/-! ## Helper lemma for the tuple-key lookup -/

theorem pyLookup_str_keys (d : List (PyVal × Bool))
    (hstr : ∀ kv ∈ d, isPyStr kv.1 = true) (a b : PyVal) :
    pyLookup d (PyVal.pypair a b) = none := by
  revert hstr
  induction d with
  | nil =>
    intro _
    rfl
  | cons kv rest ih =>
    intro hstr
    obtain ⟨k2, v⟩ := kv
    have h1 : isPyStr k2 = true := hstr (k2, v) (List.mem_cons_self _ _)
    have h2 : k2 ≠ PyVal.pypair a b := by
      cases hk : k2 <;> simp [isPyStr, hk] at h1 ⊢
    unfold pyLookup
    rw [if_neg h2]
    exact ih (fun kv2 hm => hstr kv2 (List.mem_cons_of_mem _ hm))

/-- C10: in `extract_calibrated_patches` the pair returned by
`check_for_label` is bound unsplit to `label`, so whenever `check_for_label`
returns (no `"<="` error), the bound value is a tuple and the
`label is not None` test succeeds even for the no-match pair `(None, None)` —
the drop-patch branch is unreachable on this path — and the subsequent
`self.config["label_dict"][label]` lookup uses the tuple as key in the
string-keyed label dict, so it finds no entry and the step always raises. -/
theorem c10_tuple_bound_unsplit (cfg : List (PyVal × Bool))
    (rules : List (String × Rule)) (cov : ℚ)
    (hstr : ∀ kv ∈ cfg, isPyStr kv.1 = true) :
    (∀ v, check_for_label_tuple rules cov = Except.ok v → pyIsNone v = false)
    ∧ calibAnnotatedStep cfg rules cov = Except.error () := by
  have hlookup : ∀ a b, pyLookup cfg (PyVal.pypair a b) = none :=
    pyLookup_str_keys cfg hstr
  cases hc : check_for_label rules cov with
  | error e =>
    have ht : check_for_label_tuple rules cov = Except.error e := by
      unfold check_for_label_tuple
      rw [hc]
    constructor
    · intro v hv
      rw [ht] at hv
      exact Except.noConfusion hv
    · unfold calibAnnotatedStep
      rw [ht]
  | ok res =>
    cases res with
    | none =>
      have ht : check_for_label_tuple rules cov
          = Except.ok (PyVal.pypair PyVal.pynone PyVal.pynone) := by
        unfold check_for_label_tuple
        rw [hc]
      constructor
      · intro v hv
        rw [ht] at hv
        rw [← Except.ok.inj hv]
        rfl
      · unfold calibAnnotatedStep
        rw [ht]
        simp [pyIsNone, hlookup]
    | some lp =>
      obtain ⟨l, p⟩ := lp
      have ht : check_for_label_tuple rules cov
          = Except.ok (PyVal.pypair (PyVal.pystr l) (PyVal.pyrat p)) := by
        unfold check_for_label_tuple
        rw [hc]
      constructor
      · intro v hv
        rw [ht] at hv
        rw [← Except.ok.inj hv]
        rfl
      · unfold calibAnnotatedStep
        rw [ht]
        simp [pyIsNone, hlookup]

/-- C10 (witness): the theorem at an empty rule table (so `check_for_label`
returns `(None, None)`), coverage 0, and a label dict keyed by the string
`"tumor"` — the step raises a `KeyError`. -/
theorem c10_tuple_bound_unsplit_witness :
    calibAnnotatedStep [(PyVal.pystr "tumor", true)] [] 0 = Except.error () :=
  (c10_tuple_bound_unsplit [(PyVal.pystr "tumor", true)] [] 0
    (by intro kv hm; rw [List.mem_singleton.mp hm]; rfl)).2
